import Mathlib

/-!
Verification of the Forecast Inference Core of the Lahore AQI predictor.

The development shallowly embeds the four components of the core:
the AQI index calculator (src/features/preprocessing.py), the model
resolver (src/inference/predict.py, load_model_globally), the recursive
multi-step forecast propagator (src/inference/predict.py,
make_prediction) and the alert throttle (src/alerts/notification.py).

Python floats are modelled as exact rationals; all arithmetic in the
claims under study is decimal arithmetic on literals, where the two
agree.  numpy's sine and cosine only enter through the cyclical
features, which every claim under study is independent of; they are
modelled as abstract functions, universally quantified in the theorems.
-/

/-! ## AQI index calculator (src/features/preprocessing.py) -/

/-- One row (c_low, c_high, i_low, i_high) of a pollutant breakpoint
table, as in the tuples of calculate_aqi_us. -/
structure Breakpoint where
  c_low : ℚ
  c_high : ℚ
  i_low : ℚ
  i_high : ℚ


/-- The helper calc_pollutant_aqi: scan the table in order, return the
linear interpolation of the first bracket containing the concentration,
and fall through to 500 when no bracket matches. -/
def calc_pollutant_aqi (conc : ℚ) : List Breakpoint → ℚ
  | [] => 500
  | b :: rest =>
    if b.c_low ≤ conc ∧ conc ≤ b.c_high then
      ((b.i_high - b.i_low) / (b.c_high - b.c_low)) * (conc - b.c_low) + b.i_low
    else
      calc_pollutant_aqi conc rest

/-- The PM2.5 breakpoint table of calculate_aqi_us. -/
def pm25_breakpoints : List Breakpoint :=
  [⟨0.0, 12.0, 0, 50⟩,
   ⟨12.1, 35.4, 51, 100⟩,
   ⟨35.5, 55.4, 101, 150⟩,
   ⟨55.5, 150.4, 151, 200⟩,
   ⟨150.5, 250.4, 201, 300⟩,
   ⟨250.5, 350.4, 301, 400⟩,
   ⟨350.5, 500.4, 401, 500⟩]

/-- The PM10 breakpoint table of calculate_aqi_us. -/
def pm10_breakpoints : List Breakpoint :=
  [⟨0, 54, 0, 50⟩,
   ⟨55, 154, 51, 100⟩,
   ⟨155, 254, 101, 150⟩,
   ⟨255, 354, 151, 200⟩,
   ⟨355, 424, 201, 300⟩,
   ⟨425, 504, 301, 400⟩,
   ⟨505, 604, 401, 500⟩]

/-- calculate_aqi_us: the final AQI is the maximum of the two
per-pollutant indices. -/
def calculate_aqi_us (pm25 pm10 : ℚ) : ℚ :=
  max (calc_pollutant_aqi pm25 pm25_breakpoints)
    (calc_pollutant_aqi pm10 pm10_breakpoints)

/-- The interpolation value of one bracket, as computed inside
calc_pollutant_aqi. -/
def bracket_interp (b : Breakpoint) (conc : ℚ) : ℚ :=
  ((b.i_high - b.i_low) / (b.c_high - b.c_low)) * (conc - b.c_low) + b.i_low

/-- A bracket is well formed: nonempty concentration range, index range
ordered. -/
def BreakpointOK (b : Breakpoint) : Prop :=
  b.c_low < b.c_high ∧ b.i_low ≤ b.i_high

/-- Successive table rows are strictly separated in concentration and
weakly ordered in index. -/
def TableSorted (t : List Breakpoint) : Prop :=
  List.Pairwise (fun a b => a.c_high < b.c_low ∧ a.i_high ≤ b.i_low) t

/-! ## Model resolver (src/inference/predict.py, load_model_globally) -/

/-- One registered model version together with its mae metric.  A value
of none models a version whose metric cannot be read (the except branch
that skips the version) or is absent (float inf, which the range filter
rejects); both are skipped without aborting the scan. -/
structure ModelVersion where
  version : ℕ
  mae : Option ℚ


/-- One iteration of the scan in load_model_globally: skip unreadable
metrics, accept a metric only when 15.50 <= mae <= 15.55, keep the
strictly smaller mae, and on an exactly equal mae keep the higher
version number. -/
def candidate_step (best : Option (ℕ × ℚ)) (v : ModelVersion) : Option (ℕ × ℚ) :=
  match v.mae with
  | none => best
  | some m =>
    if 15.50 ≤ m ∧ m ≤ 15.55 then
      match best with
      | none => some (v.version, m)
      | some (bv, bm) =>
        if m < bm then some (v.version, m)
        else if m = bm ∧ bv < v.version then some (v.version, m)
        else some (bv, bm)
    else best

/-- The version scan of load_model_globally, folded over the list of
registered versions with the running best candidate. -/
def load_model_globally : List ModelVersion → Option (ℕ × ℚ) → Option (ℕ × ℚ)
  | [], best => best
  | v :: rest, best => load_model_globally rest (candidate_step best v)

/-- Entry point of the resolver scan: start with no best candidate;
a result of none is the "No Model" outcome. -/
def select_best_model (vs : List ModelVersion) : Option (ℕ × ℚ) :=
  load_model_globally vs none

/-- The inclusive mae filter range of the resolver. -/
def mae_in_range (m : ℚ) : Prop := 15.50 ≤ m ∧ m ≤ 15.55

/-! ## Forecast propagator (src/inference/predict.py, make_prediction) -/

/-- One entry of the weather forecast list built by
get_weather_forecast. -/
structure WeatherPoint where
  temp : ℚ
  humidity : ℚ
  pressure : ℚ
  wind_speed : ℚ
  wind_deg : ℚ
  clouds : ℚ
  hour : ℚ
  day : ℚ
  month : ℚ
  day_of_week : ℚ
deriving Inhabited

/-- The model input row, fields in the fixed TRAINING_FEATURES order
(the order the data dict is reindexed to before model.predict). -/
structure FeatureRow where
  clouds : ℚ
  day : ℚ
  day_of_week : ℚ
  hour : ℚ
  humidity : ℚ
  month : ℚ
  pressure : ℚ
  temperature : ℚ
  wind_direction : ℚ
  wind_speed : ℚ
  aqi_lag_1 : ℚ
  aqi_lag_6 : ℚ
  aqi_lag_24 : ℚ
  aqi_roll_mean_24 : ℚ
  hour_sin : ℚ
  hour_cos : ℚ
  month_sin : ℚ
  month_cos : ℚ
  wind_sin : ℚ
  wind_cos : ℚ


/-- Assemble the feature row of one step.  sin2pi and cos2pi stand for
the maps v given to np.sin(2 pi v) and np.cos(2 pi v); the cyclical
encodings use periods 24, 12 and 360 exactly as in the source. -/
def assemble_features (sin2pi cos2pi : ℚ → ℚ) (f : WeatherPoint)
    (lag1 lag6 lag24 roll : ℚ) : FeatureRow :=
  { clouds := f.clouds
    day := f.day
    day_of_week := f.day_of_week
    hour := f.hour
    humidity := f.humidity
    month := f.month
    pressure := f.pressure
    temperature := f.temp
    wind_direction := f.wind_deg
    wind_speed := f.wind_speed
    aqi_lag_1 := lag1
    aqi_lag_6 := lag6
    aqi_lag_24 := lag24
    aqi_roll_mean_24 := roll
    hour_sin := sin2pi (f.hour / 24)
    hour_cos := cos2pi (f.hour / 24)
    month_sin := sin2pi (f.month / 12)
    month_cos := cos2pi (f.month / 12)
    wind_sin := sin2pi (f.wind_deg / 360)
    wind_cos := cos2pi (f.wind_deg / 360) }

/-- Python int() applied to a float: truncation toward zero. -/
def pyInt (q : ℚ) : ℤ := if 0 ≤ q then ⌊q⌋ else ⌈q⌉

/-- The description ladder at the end of the loop body. -/
def desc_of (pred_val : ℚ) : String :=
  if pred_val > 300 then "Hazardous"
  else if pred_val > 200 then "Very Unhealthy"
  else if pred_val > 150 then "Unhealthy"
  else if pred_val > 100 then "Sensitive"
  else if pred_val > 50 then "Moderate"
  else "Good"

/-- The mutable per-run state of the loop: the previous prediction and
the two running lag memories. -/
structure LoopState where
  last_pred_aqi : Option ℚ
  running_lag_1 : ℚ
  running_lag_6 : ℚ


/-- One emitted step: the lag values actually fed to the model, the raw
scalar prediction and the appended Prediction fields. -/
structure StepRecord where
  used_lag_1 : ℚ
  used_lag_6 : ℚ
  used_lag_24 : ℚ
  roll_mean : ℚ
  pred_val : ℚ
  aqi : ℤ
  temp : ℤ
  humidity : ℤ
  desc : String


/-- One iteration of the loop in make_prediction.  The model is a
function of the call index and the feature row; the source model is
stateless, i.e. constant in the index, and the index only exists so a
per-call stub (as in the end-to-end test of the spec) is expressible. -/
def forecast_step (model : ℕ → FeatureRow → ℚ) (sin2pi cos2pi : ℚ → ℚ)
    (lag24_seed roll : ℚ) (i : ℕ) (f : WeatherPoint) (s : LoopState) :
    LoopState × StepRecord :=
  let used_lag_1 :=
    match s.last_pred_aqi with
    | none => s.running_lag_1
    | some p => p * 0.8 + s.running_lag_1 * 0.2
  let used_lag_6 :=
    match s.last_pred_aqi with
    | none => s.running_lag_6
    | some p => p * 0.8 + s.running_lag_6 * 0.2
  let used_lag_24 :=
    match s.last_pred_aqi with
    | none => lag24_seed
    | some p => p
  let row := assemble_features sin2pi cos2pi f used_lag_1 used_lag_6 used_lag_24 roll
  let pred_val := model i row
  (⟨some pred_val,
     s.running_lag_1 * 0.5 + pred_val * 0.5,
     s.running_lag_6 * 0.5 + pred_val * 0.5⟩,
   ⟨used_lag_1, used_lag_6, used_lag_24, roll, pred_val,
     pyInt pred_val, pyInt f.temp, pyInt f.humidity, desc_of pred_val⟩)

/-- The loop of make_prediction over the forecast list, threading the
state and the call index. -/
def run_forecast (model : ℕ → FeatureRow → ℚ) (sin2pi cos2pi : ℚ → ℚ)
    (lag24_seed roll : ℚ) : ℕ → LoopState → List WeatherPoint → List StepRecord
  | _, _, [] => []
  | i, s, f :: rest =>
    let sr := forecast_step model sin2pi cos2pi lag24_seed roll i f s
    sr.2 :: run_forecast model sin2pi cos2pi lag24_seed roll (i + 1) sr.1 rest

/-- make_prediction after the model, the weather forecasts and the four
seed values have been fetched: the loop starts with no previous
prediction and the running lags seeded with the real lag values. -/
def make_prediction (model : ℕ → FeatureRow → ℚ) (sin2pi cos2pi : ℚ → ℚ)
    (forecasts : List WeatherPoint) (lag1 lag6 lag24 roll : ℚ) : List StepRecord :=
  run_forecast model sin2pi cos2pi lag24 roll 0 ⟨none, lag1, lag6⟩ forecasts

/-- A lag memory folded through a list of predictions with the decay
memory := memory * 0.5 + prediction * 0.5 of the loop. -/
def mem_from (m0 : ℚ) (preds : List ℚ) : ℚ :=
  preds.foldl (fun m p => m * 0.5 + p * 0.5) m0

/-- The memory tracker after the first k steps of a run whose
predictions are preds, seeded with m0. -/
def mem_seq (m0 : ℚ) (preds : List ℚ) (k : ℕ) : ℚ :=
  mem_from m0 (preds.take k)

/-! ## Alert throttle (src/alerts/notification.py) -/

/-- The alert threshold of check_and_alert. -/
def ALERT_THRESHOLD : ℤ := 300

/-- The cooldown, in hours, between two alert emails. -/
def COOLDOWN_HOURS : ℚ := 6

/-- The throttle decision of check_and_alert, with timestamps in
seconds: true exactly when the function reaches the dispatch call.
The persisted last alert time is none when no log entry exists. -/
def check_and_alert (aqi : ℤ) (now : ℚ) (last_sent : Option ℚ) : Bool :=
  if aqi ≤ ALERT_THRESHOLD then false
  else
    match last_sent with
    | none => true
    | some t => if (now - t) / 3600 < COOLDOWN_HOURS then false else true

/-- The effect of send_alert_email on the persisted last alert
timestamp.  has_api_key models the presence of BREVO_API_KEY,
post_result the outcome of the HTTP post (none is a raised connection
error, some s a response with status code s).  The log is committed
only in the status 201 branch, right after the successful send. -/
def send_alert_email (has_api_key : Bool) (post_result : Option ℕ)
    (now : ℚ) (log : Option ℚ) : Option ℚ :=
  if has_api_key then
    match post_result with
    | none => log
    | some status => if status = 201 then some now else log
  else log

/-! ## Historical seed lookups (src/inference/predict.py) -/

/-- One document of the processed_data collection: a formatted date
string (lexicographic order equals chronological order for the fixed
format) and an aqi value. -/
structure AqiDoc where
  date : String
  aqi : ℚ


/-- The find_one query of get_past_aqi: the document with the greatest
date at or before the target, none when no document qualifies. -/
def find_latest_le (store : List AqiDoc) (target : String) : Option AqiDoc :=
  store.foldl
    (fun acc d =>
      if d.date ≤ target then
        match acc with
        | none => some d
        | some b => if b.date < d.date then some d else some b
      else acc)
    none

/-- get_past_aqi: the stored aqi at or before the target time, with the
fixed default 150.0 when no document qualifies. -/
def get_past_aqi (store : List AqiDoc) (target : String) : ℚ :=
  match find_latest_le store target with
  | some d => d.aqi
  | none => 150.0

/-- Insert a document into a list kept sorted by descending date. -/
def insert_desc (d : AqiDoc) : List AqiDoc → List AqiDoc
  | [] => [d]
  | x :: xs => if x.date ≤ d.date then d :: x :: xs else x :: insert_desc d xs

/-- Sort the store by descending date (the sort("date", -1) of
get_rolling_mean). -/
def sort_desc (l : List AqiDoc) : List AqiDoc := l.foldr insert_desc []

/-- get_rolling_mean: the mean of the 24 most recent aqi values, with
the fixed default 150.0 on an empty store. -/
def get_rolling_mean (store : List AqiDoc) : ℚ :=
  let values := ((sort_desc store).take 24).map (fun d => d.aqi)
  if values = [] then 150.0 else values.sum / values.length

/-! ## Lemmas about the AQI index calculator -/

/-- On a table whose rows are strictly separated, the first matching
bracket is the only matching bracket, and the calculator returns its
interpolation. -/
theorem calc_of_mem {t : List Breakpoint} (hsorted : TableSorted t) {c : ℚ}
    {b : Breakpoint} (hb : b ∈ t) (h1 : b.c_low ≤ c) (h2 : c ≤ b.c_high) :
    calc_pollutant_aqi c t = bracket_interp b c := by
  induction t with
  | nil => cases hb
  | cons x rest ih =>
    rcases List.mem_cons.1 hb with rfl | hbr
    · simp only [calc_pollutant_aqi, bracket_interp, if_pos (And.intro h1 h2)]
    · have hx : x.c_high < b.c_low := ((List.pairwise_cons.1 hsorted).1 b hbr).1
      have hnot : ¬ (x.c_low ≤ c ∧ c ≤ x.c_high) := by
        rintro ⟨hl, hu⟩
        linarith
      simp only [calc_pollutant_aqi, if_neg hnot]
      exact ih (List.pairwise_cons.1 hsorted).2 hbr

/-- When no bracket of the table contains the concentration, the
calculator falls through to 500. -/
theorem calc_of_no_match {t : List Breakpoint} {c : ℚ}
    (h : ∀ b ∈ t, ¬ (b.c_low ≤ c ∧ c ≤ b.c_high)) :
    calc_pollutant_aqi c t = 500 := by
  induction t with
  | nil => rfl
  | cons x rest ih =>
    simp only [calc_pollutant_aqi, if_neg (h x (List.mem_cons_self x rest))]
    exact ih fun b hb => h b (List.mem_cons_of_mem x hb)

/-- The interpolation of a well-formed bracket is at least its lower
index bound on the bracket. -/
theorem bracket_interp_ge {b : Breakpoint} (hok : BreakpointOK b) {c : ℚ}
    (h1 : b.c_low ≤ c) : b.i_low ≤ bracket_interp b c := by
  obtain ⟨hc, hi⟩ := hok
  have hs : 0 ≤ (b.i_high - b.i_low) / (b.c_high - b.c_low) :=
    div_nonneg (by linarith) (by linarith)
  have := mul_nonneg hs (sub_nonneg.2 h1)
  simp only [bracket_interp]
  linarith

/-- The interpolation of a well-formed bracket is at most its upper
index bound on the bracket. -/
theorem bracket_interp_le {b : Breakpoint} (hok : BreakpointOK b) {c : ℚ}
    (h2 : c ≤ b.c_high) : bracket_interp b c ≤ b.i_high := by
  obtain ⟨hc, hi⟩ := hok
  have hd : (0 : ℚ) < b.c_high - b.c_low := by linarith
  have hs : 0 ≤ (b.i_high - b.i_low) / (b.c_high - b.c_low) :=
    div_nonneg (by linarith) hd.le
  have hkey : (b.i_high - b.i_low) / (b.c_high - b.c_low) * (b.c_high - b.c_low)
      = b.i_high - b.i_low := div_mul_cancel₀ _ hd.ne'
  have hm : (b.i_high - b.i_low) / (b.c_high - b.c_low) * (c - b.c_low)
      ≤ (b.i_high - b.i_low) / (b.c_high - b.c_low) * (b.c_high - b.c_low) :=
    mul_le_mul_of_nonneg_left (by linarith) hs
  simp only [bracket_interp]
  linarith

/-- Within one well-formed bracket the interpolation is monotone in the
concentration. -/
theorem bracket_interp_mono {b : Breakpoint} (hok : BreakpointOK b) {c1 c2 : ℚ}
    (h : c1 ≤ c2) : bracket_interp b c1 ≤ bracket_interp b c2 := by
  obtain ⟨hc, hi⟩ := hok
  have hs : 0 ≤ (b.i_high - b.i_low) / (b.c_high - b.c_low) :=
    div_nonneg (by linarith) (by linarith)
  have := mul_le_mul_of_nonneg_left (sub_le_sub_right h b.c_low) hs
  simp only [bracket_interp]
  linarith

/-- The PM2.5 table is strictly separated with ordered index bands. -/
theorem pm25_sorted : TableSorted pm25_breakpoints := by
  norm_num [TableSorted, pm25_breakpoints]

/-- The PM10 table is strictly separated with ordered index bands. -/
theorem pm10_sorted : TableSorted pm10_breakpoints := by
  norm_num [TableSorted, pm10_breakpoints]

/-- Every PM2.5 bracket is well formed. -/
theorem pm25_ok : ∀ b ∈ pm25_breakpoints, BreakpointOK b := by
  norm_num [BreakpointOK, pm25_breakpoints]

/-- Every PM10 bracket is well formed. -/
theorem pm10_ok : ∀ b ∈ pm10_breakpoints, BreakpointOK b := by
  norm_num [BreakpointOK, pm10_breakpoints]

/-- On a well-formed, strictly separated table the calculator is
monotone over concentrations covered by some bracket. -/
theorem calc_mono_of_covered {t : List Breakpoint}
    (hok : ∀ b ∈ t, BreakpointOK b) (hsorted : TableSorted t)
    {c1 c2 : ℚ} {b1 b2 : Breakpoint} (hb1 : b1 ∈ t) (hb2 : b2 ∈ t)
    (h11 : b1.c_low ≤ c1) (h12 : c1 ≤ b1.c_high)
    (h21 : b2.c_low ≤ c2) (h22 : c2 ≤ b2.c_high) (hc : c1 ≤ c2) :
    calc_pollutant_aqi c1 t ≤ calc_pollutant_aqi c2 t := by
  rw [calc_of_mem hsorted hb1 h11 h12, calc_of_mem hsorted hb2 h21 h22]
  by_cases heq : b1 = b2
  · subst heq
    exact bracket_interp_mono (hok b1 hb1) hc
  · have hsym := List.Pairwise.forall
      (R := fun a b : Breakpoint =>
        (a.c_high < b.c_low ∧ a.i_high ≤ b.i_low) ∨
        (b.c_high < a.c_low ∧ b.i_high ≤ a.i_low))
      (fun x y hxy => hxy.symm)
      (hsorted.imp fun h => Or.inl h)
    rcases hsym hb1 hb2 heq with ⟨hlt, hle⟩ | ⟨hlt, hle⟩
    · calc bracket_interp b1 c1 ≤ b1.i_high := bracket_interp_le (hok b1 hb1) h12
        _ ≤ b2.i_low := hle
        _ ≤ bracket_interp b2 c2 := bracket_interp_ge (hok b2 hb2) h21
    · exact absurd (by linarith : b1.c_low ≤ b2.c_high) (not_le.2 hlt)

/-- A concentration strictly between two consecutive brackets matches
no bracket of a well-formed, strictly separated table, so the
calculator returns the fall-through value 500 there. -/
theorem calc_gap {t : List Breakpoint}
    (hok : ∀ b ∈ t, BreakpointOK b) (hsorted : TableSorted t)
    {i : ℕ} (hi : i + 1 < t.length) {c : ℚ}
    (h1 : (t.get ⟨i, Nat.lt_of_succ_lt hi⟩).c_high < c)
    (h2 : c < (t.get ⟨i + 1, hi⟩).c_low) :
    calc_pollutant_aqi c t = 500 := by
  apply calc_of_no_match
  intro b hb
  obtain ⟨⟨j, hj⟩, rfl⟩ := List.mem_iff_get.1 hb
  have hpg := List.pairwise_iff_get.1 hsorted
  rcases lt_or_ge j (i + 1) with hji | hji
  · have hch : (t.get ⟨j, hj⟩).c_high < c := by
      rcases Nat.lt_succ_iff_lt_or_eq.1 hji with hjlt | rfl
      · have hrel := hpg ⟨j, hj⟩ ⟨i, Nat.lt_of_succ_lt hi⟩ hjlt
        have hbok := hok (t.get ⟨i, Nat.lt_of_succ_lt hi⟩)
          (List.get_mem t i (Nat.lt_of_succ_lt hi))
        have h3 := hrel.1
        have h4 := hbok.1
        linarith
      · exact h1
    rintro ⟨hl, hu⟩
    linarith
  · have hcl : c < (t.get ⟨j, hj⟩).c_low := by
      rcases Nat.eq_or_lt_of_le hji with heq | hjgt
      · cases heq
        exact h2
      · have hrel := hpg ⟨i + 1, hi⟩ ⟨j, hj⟩ hjgt
        have hbok := hok (t.get ⟨i + 1, hi⟩) (List.get_mem t (i + 1) hi)
        have h3 := hrel.1
        have h4 := hbok.1
        linarith
    rintro ⟨hl, hu⟩
    linarith

/-- On a table of well-formed brackets whose upper index bounds stay at
or below 500, the calculator never exceeds 500. -/
theorem calc_le_500 {t : List Breakpoint}
    (hok : ∀ b ∈ t, BreakpointOK b) (h500 : ∀ b ∈ t, b.i_high ≤ 500)
    (c : ℚ) : calc_pollutant_aqi c t ≤ 500 := by
  induction t with
  | nil => simp [calc_pollutant_aqi]
  | cons x rest ih =>
    by_cases hx : x.c_low ≤ c ∧ c ≤ x.c_high
    · simp only [calc_pollutant_aqi, if_pos hx]
      have h1 := bracket_interp_le (hok x (List.mem_cons_self x rest)) hx.2
      have h2 := h500 x (List.mem_cons_self x rest)
      simp only [bracket_interp] at h1
      linarith
    · simp only [calc_pollutant_aqi, if_neg hx]
      exact ih (fun b hb => hok b (List.mem_cons_of_mem x hb))
        (fun b hb => h500 b (List.mem_cons_of_mem x hb))

/-- C2: for the pollutant breakpoint tables of the program, a
concentration inside some bracket is mapped to
i_low + (i_high - i_low) / (c_high - c_low) * (c - c_low) of that
bracket, and a concentration above every upper bound falls through to
500. -/
theorem aqi_bracket_interpolation_and_cap :
    (∀ (c : ℚ) (b : Breakpoint), b ∈ pm25_breakpoints →
      b.c_low ≤ c → c ≤ b.c_high →
      calc_pollutant_aqi c pm25_breakpoints
        = b.i_low + (b.i_high - b.i_low) / (b.c_high - b.c_low) * (c - b.c_low)) ∧
    (∀ (c : ℚ) (b : Breakpoint), b ∈ pm10_breakpoints →
      b.c_low ≤ c → c ≤ b.c_high →
      calc_pollutant_aqi c pm10_breakpoints
        = b.i_low + (b.i_high - b.i_low) / (b.c_high - b.c_low) * (c - b.c_low)) ∧
    (∀ c : ℚ, (∀ b ∈ pm25_breakpoints, b.c_high < c) →
      calc_pollutant_aqi c pm25_breakpoints = 500) ∧
    (∀ c : ℚ, (∀ b ∈ pm10_breakpoints, b.c_high < c) →
      calc_pollutant_aqi c pm10_breakpoints = 500) := by
  refine ⟨?_, ?_, ?_, ?_⟩
  · intro c b hb h1 h2
    rw [calc_of_mem pm25_sorted hb h1 h2]
    simp only [bracket_interp]
    ring
  · intro c b hb h1 h2
    rw [calc_of_mem pm10_sorted hb h1 h2]
    simp only [bracket_interp]
    ring
  · intro c h
    apply calc_of_no_match
    intro b hb
    rintro ⟨hl, hu⟩
    exact absurd hu (not_le.2 (h b hb))
  · intro c h
    apply calc_of_no_match
    intro b hb
    rintro ⟨hl, hu⟩
    exact absurd hu (not_le.2 (h b hb))

/-- Witness for C2: the second PM2.5 bracket interpolates a
concentration of 20, and a concentration of 700 falls through. -/
theorem aqi_bracket_interpolation_and_cap_witness :
    calc_pollutant_aqi 20 pm25_breakpoints
      = 51 + (100 - 51) / (35.4 - 12.1) * (20 - 12.1) ∧
    calc_pollutant_aqi 700 pm25_breakpoints = 500 := by
  constructor
  · have h := aqi_bracket_interpolation_and_cap.1 20 ⟨12.1, 35.4, 51, 100⟩
      (by norm_num [pm25_breakpoints]) (by norm_num) (by norm_num)
    exact h
  · exact aqi_bracket_interpolation_and_cap.2.2.1 700 (by norm_num [pm25_breakpoints])

/-- C3: the final AQI is the maximum of the two per-pollutant indices;
both pollutants at 0 give AQI 0; pm2.5 at 12.0 gives AQI 50 whenever
the pm10 contribution is at most 50; any pm2.5 at or above 500.4 gives
AQI 500. -/
theorem aqi_final_max_and_edge_values :
    (∀ p25 p10 : ℚ, calculate_aqi_us p25 p10
        = max (calc_pollutant_aqi p25 pm25_breakpoints)
            (calc_pollutant_aqi p10 pm10_breakpoints)) ∧
    calculate_aqi_us 0 0 = 0 ∧
    (∀ p10 : ℚ, calc_pollutant_aqi p10 pm10_breakpoints ≤ 50 →
      calculate_aqi_us 12 p10 = 50) ∧
    (∀ p25 p10 : ℚ, 500.4 ≤ p25 → calculate_aqi_us p25 p10 = 500) := by
  refine ⟨fun _ _ => rfl, ?_, ?_, ?_⟩
  · norm_num [calculate_aqi_us, calc_pollutant_aqi, pm25_breakpoints, pm10_breakpoints]
  · intro p10 h
    have h25 : calc_pollutant_aqi 12 pm25_breakpoints = 50 := by
      norm_num [calc_pollutant_aqi, pm25_breakpoints]
    unfold calculate_aqi_us
    rw [h25]
    exact max_eq_left h
  · intro p25 p10 h500
    have h25 : calc_pollutant_aqi p25 pm25_breakpoints = 500 := by
      rcases eq_or_lt_of_le h500 with heq | hgt
      · rw [← heq]
        norm_num [calc_pollutant_aqi, pm25_breakpoints]
      · have hb500 : ∀ b ∈ pm25_breakpoints, b.c_high ≤ 500.4 := by
          norm_num [pm25_breakpoints]
        apply calc_of_no_match
        intro b hb
        rintro ⟨hl, hu⟩
        have := hb500 b hb
        linarith
    have h10 : calc_pollutant_aqi p10 pm10_breakpoints ≤ 500 :=
      calc_le_500 pm10_ok (by norm_num [pm10_breakpoints]) p10
    unfold calculate_aqi_us
    rw [h25]
    exact max_eq_left h10

/-- Witness for C3: pm10 at 0 contributes 0, so pm2.5 at 12.0 yields
exactly 50, and pm2.5 at 600 saturates at 500. -/
theorem aqi_final_max_and_edge_values_witness :
    calculate_aqi_us 12 0 = 50 ∧ calculate_aqi_us 600 300 = 500 := by
  constructor
  · exact aqi_final_max_and_edge_values.2.2.1 0
      (by norm_num [calc_pollutant_aqi, pm10_breakpoints])
  · exact aqi_final_max_and_edge_values.2.2.2 600 300 (by norm_num)

/-- Counterexample for C4: 12.05 and 12.1 both lie in the PM2.5 table
range [0, 500.4] with 12.05 below 12.1, yet the index of 12.05 (a gap
concentration, mapped to the fall-through 500) exceeds the index 51 of
12.1, so the index is not monotone over the table range. -/
theorem aqi_monotone_counterexample :
    (0 : ℚ) ≤ 12.05 ∧ (12.05 : ℚ) ≤ 500.4 ∧ (12.05 : ℚ) ≤ 12.1 ∧
    calc_pollutant_aqi 12.05 pm25_breakpoints = 500 ∧
    calc_pollutant_aqi 12.1 pm25_breakpoints = 51 ∧
    ¬ (calc_pollutant_aqi 12.05 pm25_breakpoints
        ≤ calc_pollutant_aqi 12.1 pm25_breakpoints) := by
  norm_num [calc_pollutant_aqi, pm25_breakpoints]

/-- C4 (amended): the per-pollutant index is monotone non-decreasing
over concentrations covered by some bracket of the table; concentrations
in the gaps between brackets return the fall-through 500 instead, and no
two brackets of either table share a boundary point (every consecutive
pair is separated by a strictly positive gap), so the shared-boundary
agreement condition never applies. -/
theorem aqi_monotone_on_covered :
    (∀ (c1 c2 : ℚ) (b1 b2 : Breakpoint),
      b1 ∈ pm25_breakpoints → b2 ∈ pm25_breakpoints →
      b1.c_low ≤ c1 → c1 ≤ b1.c_high → b2.c_low ≤ c2 → c2 ≤ b2.c_high →
      c1 ≤ c2 →
      calc_pollutant_aqi c1 pm25_breakpoints
        ≤ calc_pollutant_aqi c2 pm25_breakpoints) ∧
    (∀ (c1 c2 : ℚ) (b1 b2 : Breakpoint),
      b1 ∈ pm10_breakpoints → b2 ∈ pm10_breakpoints →
      b1.c_low ≤ c1 → c1 ≤ b1.c_high → b2.c_low ≤ c2 → c2 ≤ b2.c_high →
      c1 ≤ c2 →
      calc_pollutant_aqi c1 pm10_breakpoints
        ≤ calc_pollutant_aqi c2 pm10_breakpoints) ∧
    List.Pairwise (fun a b => a.c_high < b.c_low) pm25_breakpoints ∧
    List.Pairwise (fun a b => a.c_high < b.c_low) pm10_breakpoints := by
  refine ⟨?_, ?_, pm25_sorted.imp fun h => h.1, pm10_sorted.imp fun h => h.1⟩
  · intro c1 c2 b1 b2 hb1 hb2 h11 h12 h21 h22 hc
    exact calc_mono_of_covered pm25_ok pm25_sorted hb1 hb2 h11 h12 h21 h22 hc
  · intro c1 c2 b1 b2 hb1 hb2 h11 h12 h21 h22 hc
    exact calc_mono_of_covered pm10_ok pm10_sorted hb1 hb2 h11 h12 h21 h22 hc

/-- Witness for C4 (amended): a covered concentration of 5 maps no
higher than a covered concentration of 20 in the PM2.5 table. -/
theorem aqi_monotone_on_covered_witness :
    calc_pollutant_aqi 5 pm25_breakpoints ≤ calc_pollutant_aqi 20 pm25_breakpoints :=
  aqi_monotone_on_covered.1 5 20 ⟨0.0, 12.0, 0, 50⟩ ⟨12.1, 35.4, 51, 100⟩
    (by norm_num [pm25_breakpoints]) (by norm_num [pm25_breakpoints])
    (by norm_num) (by norm_num) (by norm_num) (by norm_num) (by norm_num)

/-- C10: a concentration strictly between two consecutive brackets of a
pollutant table matches no bracket, and the per-pollutant index returns
the fall-through value 500 there rather than an interpolated value; in
particular on the PM2.5 gap (12.0, 12.1) and the PM10 gap (54, 55). -/
theorem aqi_gap_returns_500 :
    (∀ (i : ℕ) (hi : i + 1 < pm25_breakpoints.length) (c : ℚ),
      (pm25_breakpoints.get ⟨i, Nat.lt_of_succ_lt hi⟩).c_high < c →
      c < (pm25_breakpoints.get ⟨i + 1, hi⟩).c_low →
      calc_pollutant_aqi c pm25_breakpoints = 500) ∧
    (∀ (i : ℕ) (hi : i + 1 < pm10_breakpoints.length) (c : ℚ),
      (pm10_breakpoints.get ⟨i, Nat.lt_of_succ_lt hi⟩).c_high < c →
      c < (pm10_breakpoints.get ⟨i + 1, hi⟩).c_low →
      calc_pollutant_aqi c pm10_breakpoints = 500) ∧
    (∀ c : ℚ, 12.0 < c → c < 12.1 → calc_pollutant_aqi c pm25_breakpoints = 500) ∧
    (∀ c : ℚ, 54 < c → c < 55 → calc_pollutant_aqi c pm10_breakpoints = 500) := by
  refine ⟨?_, ?_, ?_, ?_⟩
  · intro i hi c h1 h2
    exact calc_gap pm25_ok pm25_sorted hi h1 h2
  · intro i hi c h1 h2
    exact calc_gap pm10_ok pm10_sorted hi h1 h2
  · intro c h1 h2
    apply calc_of_no_match
    intro b hb
    fin_cases hb <;> (rintro ⟨hl, hu⟩; norm_num at hl hu; linarith)
  · intro c h1 h2
    apply calc_of_no_match
    intro b hb
    fin_cases hb <;> (rintro ⟨hl, hu⟩; norm_num at hl hu; linarith)

/-- Witness for C10: 12.05 in the first PM2.5 gap and 54.5 in the first
PM10 gap both return 500. -/
theorem aqi_gap_returns_500_witness :
    calc_pollutant_aqi 12.05 pm25_breakpoints = 500 ∧
    calc_pollutant_aqi 54.5 pm10_breakpoints = 500 :=
  ⟨aqi_gap_returns_500.2.2.1 12.05 (by norm_num) (by norm_num),
   aqi_gap_returns_500.2.2.2 54.5 (by norm_num) (by norm_num)⟩

/-! ## Lemmas about the model resolver scan -/

/-- One scan step either keeps the running best or installs the current
version with an in-range metric. -/
theorem candidate_step_cases (best : Option (ℕ × ℚ)) (x : ModelVersion) :
    candidate_step best x = best ∨
    ∃ m, x.mae = some m ∧ mae_in_range m ∧
      candidate_step best x = some (x.version, m) := by
  cases hm : x.mae with
  | none => exact Or.inl (by simp only [candidate_step, hm])
  | some m =>
    by_cases hr : 15.50 ≤ m ∧ m ≤ 15.55
    · cases best with
      | none =>
        exact Or.inr ⟨m, rfl, hr, by simp only [candidate_step, hm]; rw [if_pos hr]⟩
      | some p =>
        obtain ⟨pv, pm⟩ := p
        by_cases hlt : m < pm
        · exact Or.inr ⟨m, rfl, hr, by
            simp only [candidate_step, hm]
            rw [if_pos hr, if_pos hlt]⟩
        · by_cases htie : m = pm ∧ pv < x.version
          · exact Or.inr ⟨m, rfl, hr, by
              simp only [candidate_step, hm]
              rw [if_pos hr, if_neg hlt, if_pos htie]⟩
          · refine Or.inl ?_
            simp only [candidate_step, hm]
            rw [if_pos hr, if_neg hlt, if_neg htie]
    · refine Or.inl ?_
      simp only [candidate_step, hm]
      rw [if_neg hr]

/-- A version whose metric is unreadable or out of range leaves the
running best unchanged. -/
theorem candidate_step_skip (best : Option (ℕ × ℚ)) (x : ModelVersion)
    (h : ∀ m, x.mae = some m → ¬ mae_in_range m) :
    candidate_step best x = best := by
  cases hm : x.mae with
  | none => simp only [candidate_step, hm]
  | some m =>
    simp only [candidate_step, hm]
    rw [if_neg (show ¬ ((15.50 : ℚ) ≤ m ∧ m ≤ 15.55) from h m hm)]

/-- A version with an in-range metric m drives the running best metric
to at most m. -/
theorem candidate_step_min (best : Option (ℕ × ℚ)) (x : ModelVersion) (m : ℚ)
    (hm : x.mae = some m) (hr0 : mae_in_range m) :
    ∃ bv2 bm2, candidate_step best x = some (bv2, bm2) ∧ bm2 ≤ m := by
  have hr : (15.50 : ℚ) ≤ m ∧ m ≤ 15.55 := hr0
  cases best with
  | none =>
    refine ⟨x.version, m, ?_, le_refl m⟩
    simp only [candidate_step, hm]
    rw [if_pos hr]
  | some p =>
    obtain ⟨pv, pm⟩ := p
    by_cases hlt : m < pm
    · refine ⟨x.version, m, ?_, le_refl m⟩
      simp only [candidate_step, hm]
      rw [if_pos hr, if_pos hlt]
    · by_cases htie : m = pm ∧ pv < x.version
      · refine ⟨x.version, m, ?_, le_refl m⟩
        simp only [candidate_step, hm]
        rw [if_pos hr, if_neg hlt, if_pos htie]
      · refine ⟨pv, pm, ?_, not_lt.1 hlt⟩
        simp only [candidate_step, hm]
        rw [if_pos hr, if_neg hlt, if_neg htie]

/-- A scan over versions none of which pass the filter returns the
initial best unchanged. -/
theorem scan_of_no_candidate :
    ∀ (vs : List ModelVersion) (best : Option (ℕ × ℚ)),
      (∀ v ∈ vs, ∀ m, v.mae = some m → ¬ mae_in_range m) →
      load_model_globally vs best = best := by
  intro vs
  induction vs with
  | nil => intro best _; rfl
  | cons x rest ih =>
    intro best h
    have hx := candidate_step_skip best x (h x (List.mem_cons_self x rest))
    simp only [load_model_globally, hx]
    exact ih best fun v hv => h v (List.mem_cons_of_mem x hv)

/-- Any candidate the scan returns either is the initial best or comes
from an actual version of the list, with an in-range metric. -/
theorem scan_result_mem :
    ∀ (vs : List ModelVersion) (best : Option (ℕ × ℚ)) (bv : ℕ) (bm : ℚ),
      load_model_globally vs best = some (bv, bm) →
      best = some (bv, bm) ∨
      ∃ v ∈ vs, v.mae = some bm ∧ v.version = bv ∧ mae_in_range bm := by
  intro vs
  induction vs with
  | nil => intro best bv bm h; exact Or.inl h
  | cons x rest ih =>
    intro best bv bm h
    simp only [load_model_globally] at h
    rcases ih (candidate_step best x) bv bm h with hkeep | ⟨v, hv, hvm⟩
    · rcases candidate_step_cases best x with hsame | ⟨m, hm, hr, hinst⟩
      · exact Or.inl (hsame ▸ hkeep)
      · rw [hinst] at hkeep
        simp only [Option.some.injEq, Prod.mk.injEq] at hkeep
        refine Or.inr ⟨x, List.mem_cons_self x rest, ?_, hkeep.1, ?_⟩
        · rw [hm, hkeep.2]
        · exact hkeep.2 ▸ hr
    · exact Or.inr ⟨v, List.mem_cons_of_mem x hv, hvm⟩

/-- Along the scan the running best metric never increases. -/
theorem scan_best_le :
    ∀ (vs : List ModelVersion) (bv : ℕ) (bm : ℚ) (rv : ℕ) (rm : ℚ),
      load_model_globally vs (some (bv, bm)) = some (rv, rm) → rm ≤ bm := by
  intro vs
  induction vs with
  | nil =>
    intro bv bm rv rm h
    simp only [load_model_globally, Option.some.injEq, Prod.mk.injEq] at h
    exact le_of_eq h.2.symm
  | cons x rest ih =>
    intro bv bm rv rm h
    simp only [load_model_globally] at h
    cases hmx : x.mae with
    | none =>
      rw [show candidate_step (some (bv, bm)) x = some (bv, bm) by
        simp only [candidate_step, hmx]] at h
      exact ih bv bm rv rm h
    | some m =>
      by_cases hr : 15.50 ≤ m ∧ m ≤ 15.55
      · by_cases hlt : m < bm
        · rw [show candidate_step (some (bv, bm)) x = some (x.version, m) by
            simp only [candidate_step, hmx]; rw [if_pos hr, if_pos hlt]] at h
          exact (ih x.version m rv rm h).trans hlt.le
        · by_cases htie : m = bm ∧ bv < x.version
          · rw [show candidate_step (some (bv, bm)) x = some (x.version, m) by
              simp only [candidate_step, hmx]; rw [if_pos hr, if_neg hlt, if_pos htie]] at h
            exact (ih x.version m rv rm h).trans htie.1.le
          · rw [show candidate_step (some (bv, bm)) x = some (bv, bm) by
              simp only [candidate_step, hmx]; rw [if_pos hr, if_neg hlt, if_neg htie]] at h
            exact ih bv bm rv rm h
      · rw [show candidate_step (some (bv, bm)) x = some (bv, bm) by
          simp only [candidate_step, hmx]; rw [if_neg hr]] at h
        exact ih bv bm rv rm h

/-- The metric of the scan result is a lower bound of every in-range
metric in the list. -/
theorem scan_min :
    ∀ (vs : List ModelVersion) (best : Option (ℕ × ℚ)) (rv : ℕ) (rm : ℚ),
      load_model_globally vs best = some (rv, rm) →
      ∀ v ∈ vs, ∀ m, v.mae = some m → mae_in_range m → rm ≤ m := by
  intro vs
  induction vs with
  | nil => intro best rv rm _ v hv; cases hv
  | cons x rest ih =>
    intro best rv rm h v hv m hvm hr
    simp only [load_model_globally] at h
    rcases List.mem_cons.1 hv with rfl | hvr
    · rcases candidate_step_min best v m hvm hr with ⟨bv2, bm2, heq, hle⟩
      rw [heq] at h
      exact (scan_best_le rest bv2 bm2 rv rm h).trans hle
    · exact ih (candidate_step best x) rv rm h v hvr m hvm hr

/-- Once the running best metric is a lower bound of every remaining
in-range metric, the scan keeps that metric and can only raise the
version. -/
theorem scan_stable :
    ∀ (vs : List ModelVersion) (bv : ℕ) (bm : ℚ) (rv : ℕ) (rm : ℚ),
      (∀ v ∈ vs, ∀ m, v.mae = some m → mae_in_range m → bm ≤ m) →
      load_model_globally vs (some (bv, bm)) = some (rv, rm) →
      rm = bm ∧ bv ≤ rv := by
  intro vs
  induction vs with
  | nil =>
    intro bv bm rv rm _ h
    simp only [load_model_globally, Option.some.injEq, Prod.mk.injEq] at h
    exact ⟨h.2.symm, le_of_eq h.1⟩
  | cons x rest ih =>
    intro bv bm rv rm hmin h
    simp only [load_model_globally] at h
    have hrest : ∀ v ∈ rest, ∀ m, v.mae = some m → mae_in_range m → bm ≤ m :=
      fun v hv => hmin v (List.mem_cons_of_mem x hv)
    cases hmx : x.mae with
    | none =>
      rw [show candidate_step (some (bv, bm)) x = some (bv, bm) by
        simp only [candidate_step, hmx]] at h
      exact ih bv bm rv rm hrest h
    | some m =>
      by_cases hr : 15.50 ≤ m ∧ m ≤ 15.55
      · have hbm : bm ≤ m := hmin x (List.mem_cons_self x rest) m hmx hr
        have hlt : ¬ m < bm := not_lt.2 hbm
        by_cases htie : m = bm ∧ bv < x.version
        · rw [show candidate_step (some (bv, bm)) x = some (x.version, m) by
            simp only [candidate_step, hmx]; rw [if_pos hr, if_neg hlt, if_pos htie]] at h
          have hrest2 : ∀ v ∈ rest, ∀ m2, v.mae = some m2 → mae_in_range m2 → m ≤ m2 :=
            fun v hv m2 hm2 hr2 => htie.1 ▸ hrest v hv m2 hm2 hr2
          obtain ⟨h1, h2⟩ := ih x.version m rv rm hrest2 h
          exact ⟨h1.trans htie.1, htie.2.le.trans h2⟩
        · rw [show candidate_step (some (bv, bm)) x = some (bv, bm) by
            simp only [candidate_step, hmx]; rw [if_pos hr, if_neg hlt, if_neg htie]] at h
          exact ih bv bm rv rm hrest h
      · rw [show candidate_step (some (bv, bm)) x = some (bv, bm) by
          simp only [candidate_step, hmx]; rw [if_neg hr]] at h
        exact ih bv bm rv rm hrest h

/-- Among the versions whose metric equals the returned minimal metric,
the scan returns the greatest version number. -/
theorem scan_tie :
    ∀ (vs : List ModelVersion) (best : Option (ℕ × ℚ)) (rv : ℕ) (rm : ℚ),
      load_model_globally vs best = some (rv, rm) →
      (∀ v ∈ vs, ∀ m, v.mae = some m → mae_in_range m → rm ≤ m) →
      ∀ v ∈ vs, v.mae = some rm → mae_in_range rm → v.version ≤ rv := by
  intro vs
  induction vs with
  | nil => intro best rv rm _ _ v hv; cases hv
  | cons x rest ih =>
    intro best rv rm h hmin v hv hvm hr0
    have hr : (15.50 : ℚ) ≤ rm ∧ rm ≤ 15.55 := hr0
    simp only [load_model_globally] at h
    have hrest : ∀ v2 ∈ rest, ∀ m, v2.mae = some m → mae_in_range m → rm ≤ m :=
      fun v2 hv2 => hmin v2 (List.mem_cons_of_mem x hv2)
    rcases List.mem_cons.1 hv with rfl | hvr
    · cases best with
      | none =>
        rw [show candidate_step none v = some (v.version, rm) by
          simp only [candidate_step, hvm]; rw [if_pos hr]] at h
        exact (scan_stable rest v.version rm rv rm hrest h).2
      | some p =>
        obtain ⟨pv, pm⟩ := p
        by_cases hlt : rm < pm
        · rw [show candidate_step (some (pv, pm)) v = some (v.version, rm) by
            simp only [candidate_step, hvm]; rw [if_pos hr, if_pos hlt]] at h
          exact (scan_stable rest v.version rm rv rm hrest h).2
        · by_cases htie : rm = pm ∧ pv < v.version
          · rw [show candidate_step (some (pv, pm)) v = some (v.version, rm) by
              simp only [candidate_step, hvm]; rw [if_pos hr, if_neg hlt, if_pos htie]] at h
            exact (scan_stable rest v.version rm rv rm hrest h).2
          · rw [show candidate_step (some (pv, pm)) v = some (pv, pm) by
              simp only [candidate_step, hvm]; rw [if_pos hr, if_neg hlt, if_neg htie]] at h
            by_cases heq : rm = pm
            · have hxle : v.version ≤ pv := by
                by_contra hgt
                exact htie ⟨heq, not_le.1 hgt⟩
              have hrest2 : ∀ v2 ∈ rest, ∀ m, v2.mae = some m → mae_in_range m → pm ≤ m :=
                fun v2 hv2 m hm2 hr2 => heq ▸ hrest v2 hv2 m hm2 hr2
              obtain ⟨h1, h2⟩ := scan_stable rest pv pm rv rm hrest2 h
              exact hxle.trans h2
            · have hpm : pm < rm := lt_of_le_of_ne (not_lt.1 hlt) fun he => heq he.symm
              have hrest2 : ∀ v2 ∈ rest, ∀ m, v2.mae = some m → mae_in_range m → pm ≤ m :=
                fun v2 hv2 m hm2 hr2 => (hpm.le).trans (hrest v2 hv2 m hm2 hr2)
              obtain ⟨h1, _⟩ := scan_stable rest pv pm rv rm hrest2 h
              exact absurd h1 heq
    · exact ih (candidate_step best x) rv rm h hrest v hvr hvm hr0

/-- C5: when the resolver scan returns a candidate, its metric lies in
the inclusive range [15.50, 15.55], it belongs to an actual registered
version, it is minimal among all in-range metrics (so a version with a
metric outside the range, such as 15.56, is never selected even if
globally lowest), and among versions sharing that minimal metric the
highest version number is returned; when no version has an in-range
metric the scan returns the no-model outcome. -/
theorem model_resolver_policy :
    (∀ (vs : List ModelVersion) (rv : ℕ) (rm : ℚ),
      select_best_model vs = some (rv, rm) →
      mae_in_range rm ∧
      (∃ v ∈ vs, v.mae = some rm ∧ v.version = rv) ∧
      (∀ v ∈ vs, ∀ m, v.mae = some m → mae_in_range m → rm ≤ m) ∧
      (∀ v ∈ vs, v.mae = some rm → v.version ≤ rv)) ∧
    (∀ vs : List ModelVersion,
      (∀ v ∈ vs, ∀ m, v.mae = some m → ¬ mae_in_range m) →
      select_best_model vs = none) := by
  constructor
  · intro vs rv rm h
    have hmem := scan_result_mem vs none rv rm h
    simp only [reduceCtorEq, false_or] at hmem
    obtain ⟨v, hv, hvm, hvv, hvr⟩ := hmem
    have hmin := scan_min vs none rv rm h
    refine ⟨hvr, ⟨v, hv, hvm, hvv⟩, hmin, ?_⟩
    intro v2 hv2 hm2
    exact scan_tie vs none rv rm h hmin v2 hv2 hm2 hvr
  · intro vs h
    exact scan_of_no_candidate vs none h

/-- Witness for C5: among versions 1 (mae 15.56, out of range), 2 and 3
(both mae 15.52), the scan picks version 3 with metric 15.52, and a
registry holding only the out-of-range version yields no model. -/
theorem model_resolver_policy_witness :
    select_best_model [⟨1, some 15.56⟩, ⟨2, some 15.52⟩, ⟨3, some 15.52⟩]
      = some (3, 15.52) ∧
    mae_in_range 15.52 ∧
    select_best_model [⟨1, some 15.56⟩] = none := by
  have heval : select_best_model [⟨1, some 15.56⟩, ⟨2, some 15.52⟩, ⟨3, some 15.52⟩]
      = some (3, 15.52) := by
    norm_num [select_best_model, load_model_globally, candidate_step]
  refine ⟨heval,
    (model_resolver_policy.1 _ 3 15.52 heval).1,
    model_resolver_policy.2 _ ?_⟩
  intro v hv m hm
  simp only [List.mem_singleton] at hv
  subst hv
  simp only [Option.some.injEq] at hm
  subst hm
  intro hr
  have := hr.2
  norm_num at this

/-! ## Lemmas about the forecast propagator loop -/

/-- The loop emits exactly one record per weather point. -/
theorem run_forecast_length (model : ℕ → FeatureRow → ℚ) (sc cc : ℚ → ℚ)
    (l24 roll : ℚ) :
    ∀ (ws : List WeatherPoint) (i : ℕ) (s : LoopState),
      (run_forecast model sc cc l24 roll i s ws).length = ws.length := by
  intro ws
  induction ws with
  | nil => intro i s; rfl
  | cons f rest ih =>
    intro i s
    simp only [run_forecast, List.length_cons, ih]

/-- The rolling-mean feature of every emitted record is the seed value,
whatever the loop state. -/
theorem run_forecast_roll (model : ℕ → FeatureRow → ℚ) (sc cc : ℚ → ℚ)
    (l24 roll : ℚ) :
    ∀ (ws : List WeatherPoint) (i : ℕ) (s : LoopState) (j : ℕ)
      (hj : j < (run_forecast model sc cc l24 roll i s ws).length),
      ((run_forecast model sc cc l24 roll i s ws).get ⟨j, hj⟩).roll_mean = roll := by
  intro ws
  induction ws with
  | nil => intro i s j hj; cases hj
  | cons f rest ih =>
    intro i s j hj
    cases j with
    | zero => rfl
    | succ j2 => exact ih (i + 1) _ j2 _

/-- The emitted integer AQI of every record is the Python int()
truncation of that record's raw model output. -/
theorem run_forecast_aqi (model : ℕ → FeatureRow → ℚ) (sc cc : ℚ → ℚ)
    (l24 roll : ℚ) :
    ∀ (ws : List WeatherPoint) (i : ℕ) (s : LoopState) (j : ℕ)
      (hj : j < (run_forecast model sc cc l24 roll i s ws).length),
      ((run_forecast model sc cc l24 roll i s ws).get ⟨j, hj⟩).aqi
        = pyInt (((run_forecast model sc cc l24 roll i s ws).get ⟨j, hj⟩).pred_val) := by
  intro ws
  induction ws with
  | nil => intro i s j hj; cases hj
  | cons f rest ih =>
    intro i s j hj
    cases j with
    | zero => rfl
    | succ j2 => exact ih (i + 1) _ j2 _

/-- The raw output of every record is the model applied to the feature
row assembled from that step's weather point and the record's own lag
features. -/
theorem run_forecast_pred (model : ℕ → FeatureRow → ℚ) (sc cc : ℚ → ℚ)
    (l24 roll : ℚ) :
    ∀ (ws : List WeatherPoint) (i : ℕ) (s : LoopState) (j : ℕ)
      (hj : j < (run_forecast model sc cc l24 roll i s ws).length)
      (hjw : j < ws.length),
      ((run_forecast model sc cc l24 roll i s ws).get ⟨j, hj⟩).pred_val
        = model (i + j) (assemble_features sc cc (ws.get ⟨j, hjw⟩)
            (((run_forecast model sc cc l24 roll i s ws).get ⟨j, hj⟩).used_lag_1)
            (((run_forecast model sc cc l24 roll i s ws).get ⟨j, hj⟩).used_lag_6)
            (((run_forecast model sc cc l24 roll i s ws).get ⟨j, hj⟩).used_lag_24)
            (((run_forecast model sc cc l24 roll i s ws).get ⟨j, hj⟩).roll_mean)) := by
  intro ws
  induction ws with
  | nil => intro i s j hj; cases hj
  | cons f rest ih =>
    intro i s j hj hjw
    cases j with
    | zero => rfl
    | succ j2 =>
      have h2 := ih (i + 1) (forecast_step model sc cc l24 roll i f s).1 j2
        (by
          have := run_forecast_length model sc cc l24 roll (f :: rest) i s
          have h3 := run_forecast_length model sc cc l24 roll rest (i + 1)
            (forecast_step model sc cc l24 roll i f s).1
          have h4 : (f :: rest).length = rest.length + 1 := rfl
          omega)
        (Nat.lt_of_succ_lt_succ hjw)
      rw [show i + (j2 + 1) = (i + 1) + j2 by omega]
      exact h2

/-- The recursive feedback of the loop: every step after the first
feeds back the previous raw prediction as lag_24 and blends it at
80/20 with the running memory (the seed folded through all previous
predictions at 50/50) for lag_1 and lag_6. -/
theorem run_forecast_feedback (model : ℕ → FeatureRow → ℚ) (sc cc : ℚ → ℚ)
    (l24 roll : ℚ) :
    ∀ (ws : List WeatherPoint) (i : ℕ) (s : LoopState) (j : ℕ)
      (hj1 : j + 1 < (run_forecast model sc cc l24 roll i s ws).length),
      ((run_forecast model sc cc l24 roll i s ws).get ⟨j + 1, hj1⟩).used_lag_24
        = ((run_forecast model sc cc l24 roll i s ws).get
            ⟨j, Nat.lt_of_succ_lt hj1⟩).pred_val ∧
      ((run_forecast model sc cc l24 roll i s ws).get ⟨j + 1, hj1⟩).used_lag_1
        = ((run_forecast model sc cc l24 roll i s ws).get
            ⟨j, Nat.lt_of_succ_lt hj1⟩).pred_val * 0.8
          + mem_from s.running_lag_1
              (((run_forecast model sc cc l24 roll i s ws).take (j + 1)).map
                StepRecord.pred_val) * 0.2 ∧
      ((run_forecast model sc cc l24 roll i s ws).get ⟨j + 1, hj1⟩).used_lag_6
        = ((run_forecast model sc cc l24 roll i s ws).get
            ⟨j, Nat.lt_of_succ_lt hj1⟩).pred_val * 0.8
          + mem_from s.running_lag_6
              (((run_forecast model sc cc l24 roll i s ws).take (j + 1)).map
                StepRecord.pred_val) * 0.2 := by
  intro ws
  induction ws with
  | nil => intro i s j hj1; cases hj1
  | cons f rest ih =>
    intro i s j hj1
    cases j with
    | zero =>
      cases rest with
      | nil =>
        exfalso
        have := run_forecast_length model sc cc l24 roll [f] i s
        rw [this] at hj1
        exact absurd hj1 (by norm_num)
      | cons g rest2 => exact ⟨rfl, rfl, rfl⟩
    | succ j2 =>
      exact ih (i + 1) (forecast_step model sc cc l24 roll i f s).1 j2
        (by
          have h3 := run_forecast_length model sc cc l24 roll rest (i + 1)
            (forecast_step model sc cc l24 roll i f s).1
          have h5 := run_forecast_length model sc cc l24 roll (f :: rest) i s
          have h4 : (f :: rest).length = rest.length + 1 := rfl
          omega)

/-- A list of length four is literally four elements. -/
theorem list_eq_of_length_four {α : Type _} {l : List α} (h : l.length = 4) :
    ∃ a b c d, l = [a, b, c, d] := by
  cases l with
  | nil => simp at h
  | cons a t =>
    cases t with
    | nil => simp at h
    | cons b t =>
      cases t with
      | nil => simp at h
      | cons c t =>
        cases t with
        | nil => simp at h
        | cons d t =>
          cases t with
          | nil => exact ⟨a, b, c, d, rfl⟩
          | cons e t =>
            simp only [List.length_cons, List.length_nil] at h
            omega

set_option maxHeartbeats 1000000 in
/-- C1: in every run of make_prediction, step 0 feeds the seed lag
values verbatim; every step i > 0 feeds lag_24 = prediction[i-1] and
lag_1, lag_6 = 0.8 * prediction[i-1] + 0.2 * memory, where the two
memories start from the lag_1 and lag_6 seeds and absorb each
prediction at 50/50 after its step; the rolling mean stays at the seed
forever; and on the spec's 4-step stub run (seeds 120/110/100/115,
model outputs 130, 140, 135, 125) the fed lag values equal the
hand-computed values of those recurrences exactly (hence within 1e-9). -/
theorem forecast_propagator_lag_recurrences :
    (∀ (model : ℕ → FeatureRow → ℚ) (sin2pi cos2pi : ℚ → ℚ)
       (ws : List WeatherPoint) (lag1 lag6 lag24 roll : ℚ),
      (make_prediction model sin2pi cos2pi ws lag1 lag6 lag24 roll).length
        = ws.length) ∧
    (∀ (model : ℕ → FeatureRow → ℚ) (sin2pi cos2pi : ℚ → ℚ)
       (f : WeatherPoint) (rest : List WeatherPoint) (lag1 lag6 lag24 roll : ℚ)
       (h0 : 0 < (make_prediction model sin2pi cos2pi (f :: rest)
          lag1 lag6 lag24 roll).length),
      ((make_prediction model sin2pi cos2pi (f :: rest) lag1 lag6 lag24 roll).get
          ⟨0, h0⟩).used_lag_1 = lag1 ∧
      ((make_prediction model sin2pi cos2pi (f :: rest) lag1 lag6 lag24 roll).get
          ⟨0, h0⟩).used_lag_6 = lag6 ∧
      ((make_prediction model sin2pi cos2pi (f :: rest) lag1 lag6 lag24 roll).get
          ⟨0, h0⟩).used_lag_24 = lag24 ∧
      ((make_prediction model sin2pi cos2pi (f :: rest) lag1 lag6 lag24 roll).get
          ⟨0, h0⟩).roll_mean = roll) ∧
    (∀ (model : ℕ → FeatureRow → ℚ) (sin2pi cos2pi : ℚ → ℚ)
       (ws : List WeatherPoint) (lag1 lag6 lag24 roll : ℚ) (j : ℕ)
       (hj1 : j + 1 < (make_prediction model sin2pi cos2pi ws
          lag1 lag6 lag24 roll).length),
      ((make_prediction model sin2pi cos2pi ws lag1 lag6 lag24 roll).get
          ⟨j + 1, hj1⟩).used_lag_24
        = ((make_prediction model sin2pi cos2pi ws lag1 lag6 lag24 roll).get
            ⟨j, Nat.lt_of_succ_lt hj1⟩).pred_val ∧
      ((make_prediction model sin2pi cos2pi ws lag1 lag6 lag24 roll).get
          ⟨j + 1, hj1⟩).used_lag_1
        = ((make_prediction model sin2pi cos2pi ws lag1 lag6 lag24 roll).get
            ⟨j, Nat.lt_of_succ_lt hj1⟩).pred_val * 0.8
          + mem_seq lag1
              ((make_prediction model sin2pi cos2pi ws lag1 lag6 lag24 roll).map
                StepRecord.pred_val) (j + 1) * 0.2 ∧
      ((make_prediction model sin2pi cos2pi ws lag1 lag6 lag24 roll).get
          ⟨j + 1, hj1⟩).used_lag_6
        = ((make_prediction model sin2pi cos2pi ws lag1 lag6 lag24 roll).get
            ⟨j, Nat.lt_of_succ_lt hj1⟩).pred_val * 0.8
          + mem_seq lag6
              ((make_prediction model sin2pi cos2pi ws lag1 lag6 lag24 roll).map
                StepRecord.pred_val) (j + 1) * 0.2 ∧
      ((make_prediction model sin2pi cos2pi ws lag1 lag6 lag24 roll).get
          ⟨j + 1, hj1⟩).roll_mean = roll) ∧
    (∀ (sin2pi cos2pi : ℚ → ℚ) (ws4 : List WeatherPoint), ws4.length = 4 →
      (make_prediction (fun i _ => [(130 : ℚ), 140, 135, 125].getD i 0)
          sin2pi cos2pi ws4 120 110 100 115).map StepRecord.used_lag_1
        = [120, 129, 138.5, 134.75] ∧
      (make_prediction (fun i _ => [(130 : ℚ), 140, 135, 125].getD i 0)
          sin2pi cos2pi ws4 120 110 100 115).map StepRecord.used_lag_6
        = [110, 128, 138, 134.5] ∧
      (make_prediction (fun i _ => [(130 : ℚ), 140, 135, 125].getD i 0)
          sin2pi cos2pi ws4 120 110 100 115).map StepRecord.used_lag_24
        = [100, 130, 140, 135] ∧
      (make_prediction (fun i _ => [(130 : ℚ), 140, 135, 125].getD i 0)
          sin2pi cos2pi ws4 120 110 100 115).map StepRecord.roll_mean
        = [115, 115, 115, 115] ∧
      (make_prediction (fun i _ => [(130 : ℚ), 140, 135, 125].getD i 0)
          sin2pi cos2pi ws4 120 110 100 115).map StepRecord.pred_val
        = [130, 140, 135, 125]) := by
  refine ⟨?_, ?_, ?_, ?_⟩
  · intro model sin2pi cos2pi ws lag1 lag6 lag24 roll
    exact run_forecast_length model sin2pi cos2pi lag24 roll ws 0 ⟨none, lag1, lag6⟩
  · intro model sin2pi cos2pi f rest lag1 lag6 lag24 roll h0
    exact ⟨rfl, rfl, rfl, rfl⟩
  · intro model sin2pi cos2pi ws lag1 lag6 lag24 roll j hj1
    have h := run_forecast_feedback model sin2pi cos2pi lag24 roll ws 0
      ⟨none, lag1, lag6⟩ j hj1
    have hroll := run_forecast_roll model sin2pi cos2pi lag24 roll ws 0
      ⟨none, lag1, lag6⟩ (j + 1) hj1
    refine ⟨h.1, ?_, ?_, hroll⟩
    · simp only [mem_seq, make_prediction] at *
      rw [← List.map_take]
      exact h.2.1
    · simp only [mem_seq, make_prediction] at *
      rw [← List.map_take]
      exact h.2.2
  · intro sin2pi cos2pi ws4 h4
    obtain ⟨w0, w1, w2, w3, rfl⟩ := list_eq_of_length_four h4
    refine ⟨?_, ?_, ?_, ?_, ?_⟩ <;>
      norm_num [make_prediction, run_forecast, forecast_step, List.getD]

/-- Witness for C1: the spec's 4-step stub run on four default weather
points produces the hand-computed lag_1 sequence. -/
theorem forecast_propagator_lag_recurrences_witness :
    (make_prediction (fun i _ => [(130 : ℚ), 140, 135, 125].getD i 0)
        (fun _ => 0) (fun _ => 0)
        [default, default, default, default] 120 110 100 115).map
      StepRecord.used_lag_1 = [120, 129, 138.5, 134.75] ∧
    (make_prediction (fun i _ => [(130 : ℚ), 140, 135, 125].getD i 0)
        (fun _ => 0) (fun _ => 0)
        [default, default, default, default] 120 110 100 115).map
      StepRecord.used_lag_24 = [100, 130, 140, 135] :=
  ⟨(forecast_propagator_lag_recurrences.2.2.2 (fun _ => 0) (fun _ => 0)
      [default, default, default, default] rfl).1,
   (forecast_propagator_lag_recurrences.2.2.2 (fun _ => 0) (fun _ => 0)
      [default, default, default, default] rfl).2.2.1⟩

/-- Counterexample for C8: a stub model emitting 130.7 yields an
emitted aqi of 130 (Python int() truncation), while rounding 130.7
gives 131, so the emitted aqi is not the rounded model output. -/
theorem prediction_rounding_counterexample :
    (make_prediction (fun _ _ => (130.7 : ℚ)) (fun _ => 0) (fun _ => 0)
        [default] 0 0 0 0).map StepRecord.aqi = [130] ∧
    round (130.7 : ℚ) = 131 ∧ (130 : ℤ) ≠ 131 := by
  refine ⟨?_, ?_, by decide⟩
  · norm_num [make_prediction, run_forecast, forecast_step, pyInt]
  · rw [round_eq]
    norm_num

/-- C8 (amended): every emitted Prediction carries aqi equal to the
model's raw scalar output for that step truncated toward zero (Python
int()), with no clamping: outputs outside [0, 500] such as 700.5 or
-2.5 pass through as 700 and -2. -/
theorem prediction_aqi_truncation :
    (∀ (model : ℕ → FeatureRow → ℚ) (sin2pi cos2pi : ℚ → ℚ)
       (ws : List WeatherPoint) (lag1 lag6 lag24 roll : ℚ) (j : ℕ)
       (hj : j < (make_prediction model sin2pi cos2pi ws lag1 lag6 lag24 roll).length)
       (hjw : j < ws.length),
      ((make_prediction model sin2pi cos2pi ws lag1 lag6 lag24 roll).get
          ⟨j, hj⟩).aqi
        = pyInt (((make_prediction model sin2pi cos2pi ws lag1 lag6 lag24 roll).get
            ⟨j, hj⟩).pred_val) ∧
      ((make_prediction model sin2pi cos2pi ws lag1 lag6 lag24 roll).get
          ⟨j, hj⟩).pred_val
        = model j (assemble_features sin2pi cos2pi (ws.get ⟨j, hjw⟩)
            (((make_prediction model sin2pi cos2pi ws lag1 lag6 lag24 roll).get
                ⟨j, hj⟩).used_lag_1)
            (((make_prediction model sin2pi cos2pi ws lag1 lag6 lag24 roll).get
                ⟨j, hj⟩).used_lag_6)
            (((make_prediction model sin2pi cos2pi ws lag1 lag6 lag24 roll).get
                ⟨j, hj⟩).used_lag_24)
            (((make_prediction model sin2pi cos2pi ws lag1 lag6 lag24 roll).get
                ⟨j, hj⟩).roll_mean))) ∧
    (make_prediction (fun _ _ => (700.5 : ℚ)) (fun _ => 0) (fun _ => 0)
        [default] 0 0 0 0).map StepRecord.aqi = [700] ∧
    (make_prediction (fun _ _ => (-2.5 : ℚ)) (fun _ => 0) (fun _ => 0)
        [default] 0 0 0 0).map StepRecord.aqi = [-2] := by
  refine ⟨?_, ?_, ?_⟩
  · intro model sin2pi cos2pi ws lag1 lag6 lag24 roll j hj hjw
    constructor
    · exact run_forecast_aqi model sin2pi cos2pi lag24 roll ws 0
        ⟨none, lag1, lag6⟩ j hj
    · have h := run_forecast_pred model sin2pi cos2pi lag24 roll ws 0
        ⟨none, lag1, lag6⟩ j hj hjw
      rwa [Nat.zero_add] at h
  · norm_num [make_prediction, run_forecast, forecast_step, pyInt]
  · have hc : (⌈-(5 / 2 : ℚ)⌉ : ℤ) = -2 := by
      rw [Int.ceil_neg]
      norm_num
    norm_num [make_prediction, run_forecast, forecast_step, pyInt, hc]

/-- Witness for C8 (amended): on a single-step run with a stub model
emitting 700.5, the emitted aqi is the truncation of the raw output. -/
theorem prediction_aqi_truncation_witness :
    ((make_prediction (fun _ _ => (700.5 : ℚ)) (fun _ => 0) (fun _ => 0)
        [default] 0 0 0 0).get
        ⟨0, by norm_num [make_prediction, run_forecast]⟩).aqi
      = pyInt (((make_prediction (fun _ _ => (700.5 : ℚ)) (fun _ => 0) (fun _ => 0)
          [default] 0 0 0 0).get
          ⟨0, by norm_num [make_prediction, run_forecast]⟩).pred_val) :=
  (prediction_aqi_truncation.1 (fun _ _ => (700.5 : ℚ)) (fun _ => 0) (fun _ => 0)
    [default] 0 0 0 0 0 (by norm_num [make_prediction, run_forecast])
    (by norm_num)).1

/-- C6: with threshold 300 and cooldown 6 hours, the throttle reaches
the dispatch call exactly when the predicted aqi strictly exceeds 300
and either no last alert time is persisted or at least 6 hours (21600
seconds) have passed since it; in particular aqi 301 with no prior
alert dispatches, with a 2-hour-old prior alert is suppressed, and with
a 7-hour-old prior alert dispatches. -/
theorem alert_throttle_decision :
    (∀ (aqi : ℤ) (now : ℚ) (last_sent : Option ℚ),
      check_and_alert aqi now last_sent = true ↔
        (300 < aqi ∧ (last_sent = none ∨
          ∃ t, last_sent = some t ∧ 6 * 3600 ≤ now - t))) ∧
    check_and_alert 301 0 none = true ∧
    check_and_alert 301 7200 (some 0) = false ∧
    check_and_alert 301 25200 (some 0) = true := by
  have hmain : ∀ (aqi : ℤ) (now : ℚ) (last_sent : Option ℚ),
      check_and_alert aqi now last_sent = true ↔
        (300 < aqi ∧ (last_sent = none ∨
          ∃ t, last_sent = some t ∧ 6 * 3600 ≤ now - t)) := by
    intro aqi now last_sent
    by_cases haqi : aqi ≤ 300
    · have hfalse : check_and_alert aqi now last_sent = false := by
        unfold check_and_alert ALERT_THRESHOLD
        rw [if_pos haqi]
      rw [hfalse]
      simp only [Bool.false_eq_true, false_iff]
      rintro ⟨hgt, _⟩
      exact absurd haqi (not_le.2 hgt)
    · push_neg at haqi
      cases last_sent with
      | none =>
        have htrue : check_and_alert aqi now none = true := by
          unfold check_and_alert ALERT_THRESHOLD
          rw [if_neg (not_le.2 haqi)]
        rw [htrue]
        simp [haqi]
      | some t =>
        have hred : check_and_alert aqi now (some t)
            = if (now - t) / 3600 < COOLDOWN_HOURS then false else true := by
          unfold check_and_alert ALERT_THRESHOLD
          rw [if_neg (not_le.2 haqi)]
        rw [hred]
        unfold COOLDOWN_HOURS
        by_cases hcool : (now - t) / 3600 < 6
        · rw [if_pos hcool]
          simp only [Bool.false_eq_true, false_iff]
          rintro ⟨_, hdisj⟩
          rcases hdisj with hnone | ⟨t2, ht2, hge⟩
          · exact Option.noConfusion hnone
          · obtain rfl : t = t2 := Option.some.inj ht2
            have h2 := (div_lt_iff₀ (by norm_num : (0 : ℚ) < 3600)).1 hcool
            linarith
        · rw [if_neg hcool]
          push_neg at hcool
          simp only [true_iff]
          refine ⟨haqi, Or.inr ⟨t, rfl, ?_⟩⟩
          have h2 := (le_div_iff₀ (by norm_num : (0 : ℚ) < 3600)).1 hcool
          linarith
  refine ⟨hmain, ?_, ?_, ?_⟩
  · exact (hmain 301 0 none).2 ⟨by norm_num, Or.inl rfl⟩
  · rw [← Bool.not_eq_true]
    intro hdisp
    obtain ⟨_, hdisj⟩ := (hmain 301 7200 (some 0)).1 hdisp
    rcases hdisj with hnone | ⟨t2, ht2, hge⟩
    · exact Option.noConfusion hnone
    · obtain rfl : (0 : ℚ) = t2 := Option.some.inj ht2
      norm_num at hge
  · exact (hmain 301 25200 (some 0)).2 ⟨by norm_num,
      Or.inr ⟨0, rfl, by norm_num⟩⟩

/-- Witness for C6: the dispatch criterion applied at aqi 301 with a
7-hour-old last alert. -/
theorem alert_throttle_decision_witness :
    check_and_alert 301 25200 (some 0) = true ∧ (300 : ℤ) < 301 :=
  ⟨(alert_throttle_decision.1 301 25200 (some 0)).2
      ⟨by norm_num, Or.inr ⟨0, rfl, by norm_num⟩⟩,
   by norm_num⟩

/-- C7: the persisted last-alert timestamp is committed exactly on a
successful send (API key present and HTTP status 201); on a missing
key, an error or any other status the log is unchanged, so a later
throttle check behaves exactly as if the failed attempt had never
happened. -/
theorem alert_log_commit_on_success :
    (∀ (now : ℚ) (log : Option ℚ),
      send_alert_email true (some 201) now log = some now) ∧
    (∀ (k : Bool) (r : Option ℕ) (now : ℚ) (log : Option ℚ),
      ¬ (k = true ∧ r = some 201) → send_alert_email k r now log = log) ∧
    (∀ (k : Bool) (r : Option ℕ) (now : ℚ) (log : Option ℚ),
      ¬ (k = true ∧ r = some 201) →
      ∀ (aqi : ℤ) (now2 : ℚ),
        check_and_alert aqi now2 (send_alert_email k r now log)
          = check_and_alert aqi now2 log) := by
  have hfail : ∀ (k : Bool) (r : Option ℕ) (now : ℚ) (log : Option ℚ),
      ¬ (k = true ∧ r = some 201) → send_alert_email k r now log = log := by
    intro k r now log h
    cases k with
    | false => rfl
    | true =>
      cases r with
      | none => rfl
      | some status =>
        have hs : ¬ status = 201 := fun he => h ⟨rfl, by rw [he]⟩
        simp only [send_alert_email, if_true]
        rw [if_neg hs]
  refine ⟨fun now log => rfl, hfail, ?_⟩
  intro k r now log h aqi now2
  rw [hfail k r now log h]

/-- Witness for C7: a 201 response commits the timestamp; a 500
response leaves the log empty and the next check unchanged. -/
theorem alert_log_commit_on_success_witness :
    send_alert_email true (some 201) 1000 none = some 1000 ∧
    send_alert_email true (some 500) 1000 none = none ∧
    check_and_alert 301 25200 (send_alert_email true (some 500) 1000 (some 0))
      = check_and_alert 301 25200 (some 0) :=
  ⟨alert_log_commit_on_success.1 1000 none,
   alert_log_commit_on_success.2.1 true (some 500) 1000 none (by simp),
   alert_log_commit_on_success.2.2 true (some 500) 1000 (some 0) (by simp) 301 25200⟩

/-- The fold of get_past_aqi finds nothing when no stored date is at or
before the target. -/
theorem find_latest_le_none :
    ∀ (store : List AqiDoc) (target : String),
      (∀ d ∈ store, ¬ d.date ≤ target) → find_latest_le store target = none := by
  have hgen : ∀ (store : List AqiDoc) (target : String),
      (∀ d ∈ store, ¬ d.date ≤ target) →
      store.foldl
        (fun acc d =>
          if d.date ≤ target then
            match acc with
            | none => some d
            | some b => if b.date < d.date then some d else some b
          else acc)
        none = none := by
    intro store
    induction store with
    | nil => intro target _; rfl
    | cons d rest ih =>
      intro target h
      simp only [List.foldl_cons,
        if_neg (h d (List.mem_cons_self d rest))]
      exact ih target fun d2 hd2 => h d2 (List.mem_cons_of_mem d hd2)
  intro store target h
  exact hgen store target h

/-- C9: when the historical lookup finds no document at or before the
target time, get_past_aqi returns the fixed default 150.0, and
get_rolling_mean returns 150.0 on an empty store; both are total, so
the propagation run proceeds with the defaults instead of failing. -/
theorem historical_seed_defaults :
    (∀ (store : List AqiDoc) (target : String),
      (∀ d ∈ store, ¬ d.date ≤ target) → get_past_aqi store target = 150) ∧
    (∀ target : String, get_past_aqi [] target = 150) ∧
    get_rolling_mean [] = 150 := by
  refine ⟨?_, ?_, ?_⟩
  · intro store target h
    unfold get_past_aqi
    rw [find_latest_le_none store target h]
    norm_num
  · intro target
    unfold get_past_aqi find_latest_le
    norm_num
  · unfold get_rolling_mean sort_desc
    norm_num

/-- Witness for C9: an empty history store yields the 150.0 defaults. -/
theorem historical_seed_defaults_witness :
    get_past_aqi [] "2026-01-01 00:00:00" = 150 ∧
    get_past_aqi [] "2026-02-01 00:00:00" = 150 ∧
    get_rolling_mean [] = 150 :=
  ⟨historical_seed_defaults.1 [] "2026-01-01 00:00:00" (by simp),
   historical_seed_defaults.2.1 "2026-02-01 00:00:00",
   historical_seed_defaults.2.2⟩
